import Mathlib

/-!
Verification of the Thrush compiler backend (code-generation engine,
diagnostic reporter, and build orchestrator) against its specification.

The definitions below are a shallow embedding of `src/backend/compiler.rs`,
`src/diagnostic.rs` and `src/error.rs`.  LLVM IR emission is modelled as an
append-only trace of instructions and globals; Rust panics
(`panic!`, `todo!`, `unreachable!`, `unimplemented!`, unwrap of `None`,
out-of-bounds indexing) are modelled as `Except.error` with a tag naming the
panic class.
-/

set_option autoImplicit false

namespace Thrush

/-- The semantic type tags of `frontend::lexer::DataTypes`.  The lexer is not
part of the sources under verification; the twelve tags below are the ones
named by the specification's data model (signed/unsigned integers at
8/16/32/64 bits, single/double floats, boolean, string).  `Void` is modelled
from the spec: the print-lowering fallback arm (`e => println!("{e}")`) and
the spec's "any other referenced type" clause imply at least one further tag
beyond the twelve; `Void` stands for such a tag. -/
inductive DataTypes where
  | I8 | I16 | I32 | I64
  | U8 | U16 | U32 | U64
  | F32 | F64
  | String
  | Bool
  | Void
deriving DecidableEq, Repr

/-- `DataTypes::defer` from the missing lexer: used in `emit_variable` only to
copy the borrowed tag out of the reference (`deferTag kind()`), so it is the
identity on tags. -/
def deferTag (d : DataTypes) : DataTypes := d

/-- The integer tags, exactly the ones matched by the first arm of
`emit_variable` and of the `RefVar` match in `emit_print`. -/
def isIntegerTag : DataTypes → Bool
  | .I8 | .I16 | .I32 | .I64 | .U8 | .U16 | .U32 | .U64 => true
  | _ => false

/-- The float tags (`F32 | F64`). -/
def isFloatTag : DataTypes → Bool
  | .F32 | .F64 => true
  | _ => false

/-- Modelled from the spec: the `Display` rendering of a tag used by the
`println!("{e}")` fallback arm of `emit_print` (the impl lives in the missing
lexer); the rendered text itself is irrelevant to every claim. -/
def displayTag : DataTypes → String
  | .I8 => "i8" | .I16 => "i16" | .I32 => "i32" | .I64 => "i64"
  | .U8 => "u8" | .U16 => "u16" | .U32 => "u32" | .U64 => "u64"
  | .F32 => "f32" | .F64 => "f64"
  | .String => "string" | .Bool => "bool" | .Void => "void"

/-- Modelled from the spec: `datatype_integer_to_type` of the missing
`backend/llvm.rs`, which maps an integer tag to the LLVM integer type of the
declared width ("a stack cell sized for the declared width"). -/
def datatype_integer_to_type : DataTypes → Nat
  | .I8 | .U8 => 8
  | .I16 | .U16 => 16
  | .I32 | .U32 => 32
  | .I64 | .U64 => 64
  | _ => 0

/-- Modelled from the spec: `datatype_float_to_type` of the missing
`backend/llvm.rs`. -/
def datatype_float_to_type : DataTypes → Nat
  | .F32 => 32
  | .F64 => 64
  | _ => 0

/-- A native value flowing through the builder (`BasicValueEnum`): integer and
float constants, the result of a `load` instruction (identified by the id of
that instruction), or a pointer to a global (identified by the global's id). -/
inductive IRValue where
  | constInt (kind : DataTypes) (num : Int)
  | constFloat (kind : DataTypes) (num : Int)
  | loaded (id : Nat)
  | gptr (id : Nat)
deriving DecidableEq, Repr

/-- `ThrushBasicValueEnum`: a semantic type tag paired with the
already-materialized native value. -/
structure ThrushBasicValueEnum where
  kind : DataTypes
  value : IRValue
deriving DecidableEq, Repr

/-- The AST node set, `Instruction<'ctx>` of `backend/compiler.rs`. -/
inductive Instruction where
  | Println (data : List Instruction)
  | Print (data : List Instruction)
  | String (s : String)
  | Integer (kind : DataTypes) (num : Int)
  | Block (stmts : List Instruction)
  | EntryPoint (body : Instruction)
  | Value (v : ThrushBasicValueEnum)
  | Param (name : String) (kind : DataTypes)
  | Function (name : String) (params : List Instruction) (body : Instruction)
      (return_kind : Option DataTypes) (is_public : Bool)
  | Return (i : Instruction)
  | Var (name : String) (kind : DataTypes) (value : Option Instruction) (line : Nat)
  | RefVar (name : String) (line : Nat) (kind : DataTypes)
  | MutVar (name : String) (value : Instruction) (kind : DataTypes)
  | Boolean (b : Bool)
  | Null

/-- One emitted LLVM instruction of the trace: stack allocation, aligned
store, aligned load, call, or return. -/
inductive IRInstr where
  | alloca (id : Nat) (bits : Nat)
  | store (ptr : Nat) (val : IRValue) (align : Nat)
  | load (id : Nat) (ptr : Nat) (bits : Nat) (align : Nat)
  | call (fn : String) (args : List IRValue)
  | retVoid
  | retValue (v : IRValue)
deriving DecidableEq, Repr

/-- The initializer of an emitted global. -/
inductive GlobalInit where
  | bytes (bs : List Nat)
  | boolInit (b : Bool)
deriving DecidableEq, Repr

/-- An emitted module-level global. -/
structure IRGlobal where
  id : Nat
  name : String
  init : GlobalInit
  isConstant : Bool
deriving DecidableEq, Repr

/-- The panic classes of the reference implementation. -/
inductive CompileErr where
  | todoE
  | unreachableE
  | unimplementedE
  | panicE
deriving DecidableEq, Repr

/-- The mutable state of `Compiler<'a, 'ctx>` plus the module being built:
the emitted instruction trace, the emitted globals, the functions added to
the module, a fresh-id counter, the flat module-scope symbol map `globals`,
the stack of scope frames `locals` (innermost frame last, matching the Rust
`Vec` indexing), the `scope` counter, and the console log of the
`println!` fallback. -/
structure CState where
  instrs : List IRInstr
  globalsIR : List IRGlobal
  funcs : List String
  fresh : Nat
  globals : List (String × Instruction)
  locals : List (List (String × Instruction))
  scope : Nat
  logs : List String

/-- First-match association-list lookup, the observable semantics of
`HashMap::get` over the insertion discipline used here. -/
def lookupA (name : String) : List (String × Instruction) → Option Instruction
  | [] => none
  | (k, v) :: rest => if k = name then some v else lookupA name rest

/-- Append one instruction to the emitted trace. -/
def emitI (i : IRInstr) (s : CState) : CState :=
  { s with instrs := s.instrs ++ [i] }

/-- Draw a fresh id. -/
def freshId (s : CState) : Nat × CState :=
  (s.fresh, { s with fresh := s.fresh + 1 })

/-- `build_alloca_with_integer` / `build_alloca_with_float` of the missing
`backend/llvm.rs`, modelled from the spec: emit one stack allocation of the
given width and return the cell's pointer id. -/
def build_alloca (bits : Nat) (s : CState) : Nat × CState :=
  let (id, s) := freshId s
  (id, emitI (.alloca id bits) s)

/-- `build_const_integer` of the missing `backend/llvm.rs`: an integer
constant of the given tag. -/
def build_const_integer (kind : DataTypes) (num : Int) : IRValue :=
  .constInt kind num

/-- `build_const_float` of the missing `backend/llvm.rs`: a float constant of
the given tag. -/
def build_const_float (kind : DataTypes) (num : Int) : IRValue :=
  .constFloat kind num

/-- The byte contents of a Rust string literal (the programs under the claims
are ASCII, where code points and bytes coincide). -/
def strBytes (str : String) : List Nat :=
  str.toList.map Char.toNat

/-- `emit_global_string`: a named, non-constant byte-vector global holding
the string's bytes, returned as a pointer id (`build_pointer_cast`). -/
def emit_global_string (str : String) (name : String) (s : CState) : Nat × CState :=
  let (id, s) := freshId s
  (id, { s with globalsIR := s.globalsIR ++ [⟨id, name, .bytes (strBytes str), false⟩] })

/-- `emit_global_string_constant`: an unnamed constant byte-array global
holding the string's bytes, returned as a pointer id. -/
def emit_global_string_constant (str : String) (s : CState) : Nat × CState :=
  let (id, s) := freshId s
  (id, { s with globalsIR := s.globalsIR ++ [⟨id, "", .bytes (strBytes str), true⟩] })

/-- `emit_global_boolean`: a private global holding 0 or 1, returned as a
pointer id. -/
def emit_global_boolean (value : Bool) (s : CState) : Nat × CState :=
  let (id, s) := freshId s
  (id, { s with globalsIR := s.globalsIR ++ [⟨id, "", .boolInit value, false⟩] })

/-- `get_local`: the frame walk of `Compiler::get_local`.  `scanFrames l name
k` inspects frame indices `k-1, k-2, ..., 0`, exactly the Rust iteration
`for index in (0..self.scope - 1).rev()`. -/
def scanFrames (locals : List (List (String × Instruction))) (name : String) :
    Nat → Option Instruction
  | 0 => none
  | n + 1 =>
    match (locals.get? n).bind (lookupA name) with
    | some v => some v
    | none => scanFrames locals name n

/-- `Compiler::get_local`: walk the frames below index `scope - 1`; reaching
the end of the loop is `panic!()`.  (At `scope = 0` the Rust `self.scope - 1`
underflows and panics; both outcomes are the `panicE` error.) -/
def get_local (name : String) (s : CState) : Except CompileErr Instruction :=
  match scanFrames s.locals name (s.scope - 1) with
  | some v => .ok v
  | none => .error .panicE

/-- `Compiler::get_global`: direct probe of the flat module-scope map; the
`unwrap` of a missing key is a panic. -/
def get_global (name : String) (s : CState) : Except CompileErr Instruction :=
  match lookupA name s.globals with
  | some v => .ok v
  | none => .error .panicE

/-- `Compiler::define_printf`: add the external variadic `printf` declaration
to the module. -/
def define_printf (s : CState) : CState :=
  { s with funcs := s.funcs ++ ["printf"] }

/-- `Compiler::emit_main`: add the zero-argument `main` function and position
the builder at its fresh entry block. -/
def emit_main (s : CState) : CState :=
  { s with funcs := s.funcs ++ ["main"] }

/-- One iteration of the `for_each` argument loop of `Compiler::emit_print`:
a literal string becomes a fresh unnamed constant byte-array global whose
address is pushed; a literal integer becomes an inline immediate; a variable
reference is resolved by (name, type) — numeric tags through the frame walk
(`get_local`), string/boolean tags through the flat map (`get_global`), and
any other tag is only printed to the console (`println!("{e}")`), pushing
nothing; any other argument node is `todo!()`.  Returns the pushed value, if
any, and the next state. -/
def emitPrintArg (instr : Instruction) (s : CState) :
    Except CompileErr (Option IRValue × CState) :=
  match instr with
  | .String str =>
    let (id, s) := freshId s
    let s := { s with globalsIR := s.globalsIR ++ [⟨id, "", .bytes (strBytes str), true⟩] }
    .ok (some (.gptr id), s)
  | .Integer kind num =>
    .ok (some (build_const_integer kind num), s)
  | .RefVar name _ kind =>
    if isIntegerTag kind || isFloatTag kind then
      match get_local name s with
      | .error e => .error e
      | .ok (.Value pointer) => .ok (some pointer.value, s)
      | .ok _ => .ok (none, s)
    else if kind = .String ∨ kind = .Bool then
      match get_global name s with
      | .error e => .error e
      | .ok (.Value pointer) =>
        match pointer.kind with
        | .String =>
          match pointer.value with
          | .gptr vector => .ok (some (.gptr vector), s)
          | _ => .error .todoE
        | .Bool => .ok (some pointer.value, s)
        | _ => .error .todoE
      | .ok _ => .ok (none, s)
    else
      .ok (none, { s with logs := s.logs ++ [displayTag kind] })
  | _ => .error .todoE

/-- The argument-collection loop of `Compiler::emit_print` over the
print/println argument list, accumulating the `args` vector. -/
def emitPrintArgs : List Instruction → List IRValue → CState →
    Except CompileErr (List IRValue × CState)
  | [], args, s => .ok (args, s)
  | instr :: rest, args, s =>
    match emitPrintArg instr s with
    | .error e => .error e
    | .ok (some v, s) => emitPrintArgs rest (args ++ [v]) s
    | .ok (none, s) => emitPrintArgs rest args s

/-- `Compiler::emit_print`: collect the arguments, then emit the call to the
`printf` declaration (whose absence at the `unwrap` is a panic). -/
def emit_print (data : List Instruction) (s : CState) : Except CompileErr CState :=
  match emitPrintArgs data [] s with
  | .error e => .error e
  | .ok (args, s) =>
    if s.funcs.contains "printf" then .ok (emitI (.call "printf" args) s)
    else .error .panicE

/-- The `match kind` of `Compiler::emit_variable` that materializes the value
to bind: for integer/float kinds an alloca + aligned store (of the
initializer, or of the type's zero when the initializer is `Null`) + aligned
reload; for `String` a named byte-vector global (a one-byte NUL global when
the initializer is `Null`); for `Bool` a private 0/1 global, with the
missing-initializer arm being `unimplemented!()`. -/
def mkVarValue (name : String) (kind : DataTypes) (value : Instruction) (s : CState) :
    Except CompileErr (Instruction × CState)            :=
  if isIntegerTag kind then
    let bits := datatype_integer_to_type kind
    let (ptr, s) := build_alloca bits s
    match value with
    | .Null =>
      let s := emitI (.store ptr (build_const_integer kind 0) 4) s
      let (lid, s) := freshId s
      let s := emitI (.load lid ptr bits 4) s
      .ok (Instruction.Value ⟨deferTag kind, IRValue.loaded lid⟩, s)
    | .Integer kind2 num =>
      if isIntegerTag kind2 then
        let s := emitI (.store ptr (build_const_integer kind2 num) 4) s
        let (lid, s) := freshId s
        let s := emitI (.load lid ptr bits 4) s
        .ok (Instruction.Value ⟨deferTag kind, IRValue.loaded lid⟩, s)
      else .error .todoE
    | _ => .error .unreachableE
  else if isFloatTag kind then
    let bits := datatype_float_to_type kind
    let (ptr, s) := build_alloca bits s
    match value with
    | .Null =>
      let s := emitI (.store ptr (build_const_float kind 0) 4) s
      let (lid, s) := freshId s
      let s := emitI (.load lid ptr bits 4) s
      .ok (Instruction.Value ⟨deferTag kind, IRValue.loaded lid⟩, s)
    | .Integer kind2 num =>
      if isFloatTag kind2 then
        let s := emitI (.store ptr (build_const_float kind2 num) 4) s
        let (lid, s) := freshId s
        let s := emitI (.load lid ptr bits 4) s
        .ok (Instruction.Value ⟨deferTag kind, IRValue.loaded lid⟩, s)
      else .error .todoE
    | _ => .error .unreachableE
  else if kind = .String then
    match value with
    | .Null =>
      let (g, s) := emit_global_string "\x00" name s
      .ok (Instruction.Value ⟨DataTypes.String, IRValue.gptr g⟩, s)
    | .String str =>
      let (g, s) := emit_global_string str name s
      .ok (Instruction.Value ⟨DataTypes.String, IRValue.gptr g⟩, s)
    | _ => .error .unreachableE
  else if kind = .Bool then
    match value with
    | .Boolean b =>
      let (g, s) := emit_global_boolean b s
      .ok (Instruction.Value ⟨DataTypes.Bool, IRValue.gptr g⟩, s)
    | _ => .error .unimplementedE
  else .error .todoE

/-- `Compiler::emit_variable`: materialize the value, then bind it — numeric
kinds into the frame `locals[scope - 1]` (index underflow or out-of-bounds
indexing panics), every other kind into the flat `globals` map. -/
def emit_variable (name : String) (kind : DataTypes) (value : Instruction) (s : CState) :
    Except CompileErr CState :=
  match mkVarValue name kind value s with
  | .error e => .error e
  | .ok (instr, s) =>
    match instr with
    | .Value tv =>
      if isIntegerTag tv.kind || isFloatTag tv.kind then
        if s.scope = 0 then .error .panicE
        else
          match s.locals.get? (s.scope - 1) with
          | some frame =>
            .ok { s with locals := s.locals.set (s.scope - 1) ((name, .Value tv) :: frame) }
          | none => .error .panicE
      else .ok { s with globals := (name, .Value tv) :: s.globals }
    | _ => .ok s

/-- `Compiler::emit_return`. -/
def emit_return (instr : Instruction) (s : CState) : Except CompileErr CState :=
  match instr with
  | .Null => .ok s
  | .Integer kind num => .ok (emitI (.retValue (build_const_integer kind num)) s)
  | .String str =>
    let (g, s) := emit_global_string_constant str s
    .ok (emitI (.retValue (.gptr g)) s)
  | _ => .error .todoE

/-- Enter a lexical block: `self.scope += 1; self.locals.push(HashMap::new())`. -/
def enterBlock (s : CState) : CState :=
  { s with scope := s.scope + 1, locals := s.locals ++ [[]] }

/-- Leave a lexical block: `self.scope -= 1; self.locals.pop()`. -/
def exitBlock (s : CState) : CState :=
  { s with scope := s.scope - 1, locals := s.locals.dropLast }

mutual

/-- `Compiler::codegen`: single-pass depth-first lowering of one AST node. -/
def codegen : Instruction → CState → Except CompileErr CState
  | .Block stmts, s =>
    match codegenList stmts (enterBlock s) with
    | .error e => .error e
    | .ok s2 => .ok (exitBlock s2)
  | .Function name _params body return_kind _is_public, s =>
    let s := { s with funcs := s.funcs ++ [name] }
    match codegen body s with
    | .error e => .error e
    | .ok s2 => if return_kind.isNone then .ok (emitI .retVoid s2) else .ok s2
  | .Return i, s => emit_return i s
  | .String str, s => .ok (emit_global_string_constant str s).2
  | .Println data, s =>
    let s := if s.funcs.contains "printf" then s else define_printf s
    emit_print data s
  | .Print data, s =>
    let s := if s.funcs.contains "printf" then s else define_printf s
    emit_print data s
  | .Var name kind (some v) _, s => emit_variable name kind v s
  | .Var name kind none _, s => emit_variable name kind .Null s
  | .EntryPoint body, s =>
    match codegen body (emit_main s) with
    | .error e => .error e
    | .ok s2 => .ok (emitI (.retValue (.constInt .I32 0)) s2)
  | _, _ => .error .todoE

/-- The statement loop of the `Block` arm of `Compiler::codegen` (and of
`Compiler::start` over the top-level sequence). -/
def codegenList : List Instruction → CState → Except CompileErr CState
  | [], s => .ok s
  | i :: rest, s =>
    match codegen i s with
    | .error e => .error e
    | .ok s2 => codegenList rest s2

end

/-- The initial compiler state of `Compiler::compile`: empty module, empty
flat map, one (empty) scope frame and `scope = 0`. -/
def initState : CState :=
  { instrs := [], globalsIR := [], funcs := [], fresh := 0,
    globals := [], locals := [[]], scope := 0, logs := [] }

/-- `Compiler::compile` / `Compiler::start`: lower the top-level instruction
sequence in order from the initial state. -/
def compile (instructions : List Instruction) : Except CompileErr CState :=
  codegenList instructions initState



/-- The symbol-environment signature of a state: flat map, frame stack and
scope counter. -/
def sig (s : CState) : List (String × Instruction) × List (List (String × Instruction)) × Nat :=
  (s.globals, s.locals, s.scope)

theorem emitPrintArg_sig (instr : Instruction) (s : CState) :
    ∀ r, emitPrintArg instr s = .ok r → sig r.2 = sig s := by
  intro r h
  cases instr <;> simp only [emitPrintArg, freshId] at h
  case String str =>
    cases h; simp [sig]
  case Integer kind num =>
    cases h; simp [sig]
  case RefVar name line kind =>
    split at h
    · split at h <;> first | (cases h; simp [sig]) | cases h
    · split at h
      · split at h <;>
          first
            | (cases h; simp [sig])
            | cases h
            | (split at h <;> first
                | (cases h; simp [sig])
                | cases h
                | (split at h <;> first | (cases h; simp [sig]) | cases h))
      · cases h; simp [sig]
  all_goals cases h

theorem emitPrintArgs_sig (data : List Instruction) :
    ∀ args s r, emitPrintArgs data args s = .ok r → sig r.2 = sig s := by
  induction data with
  | nil =>
    intro args s r h
    simp only [emitPrintArgs] at h
    cases h
    rfl
  | cons i rest ih =>
    intro args s r h
    simp only [emitPrintArgs] at h
    cases harg : emitPrintArg i s with
    | error e => rw [harg] at h; cases h
    | ok p =>
      rw [harg] at h
      have hp := emitPrintArg_sig i s p harg
      obtain ⟨ov, s1⟩ := p
      cases ov with
      | some v => exact (ih _ _ _ h).trans hp
      | none => exact (ih _ _ _ h).trans hp

theorem emit_print_sig (data : List Instruction) (s : CState) :
    ∀ s', emit_print data s = .ok s' → sig s' = sig s := by
  intro s' h
  simp only [emit_print] at h
  cases hargs : emitPrintArgs data [] s with
  | error e => rw [hargs] at h; cases h
  | ok r =>
    rw [hargs] at h
    have hsig := emitPrintArgs_sig data [] s r hargs
    obtain ⟨args, s2⟩ := r
    dsimp only at h
    split at h
    · cases h; simpa [sig, emitI] using hsig
    · cases h

theorem mkVarValue_sig (name : String) (kind : DataTypes) (value : Instruction) (s : CState) :
    ∀ r, mkVarValue name kind value s = .ok r → sig r.2 = sig s := by
  intro r h
  simp only [mkVarValue, build_alloca, freshId, emitI,
    emit_global_string, emit_global_boolean] at h
  split at h <;> [skip; split at h <;> [skip; split at h <;> [skip; split at h]]] <;>
    first
      | (split at h <;> first
          | (cases h; simp [sig])
          | cases h
          | (split at h <;> first | (cases h; simp [sig]) | cases h))
      | cases h

theorem emit_return_sig (instr : Instruction) (s : CState) :
    ∀ s', emit_return instr s = .ok s' → sig s' = sig s := by
  intro s' h
  cases instr <;> simp only [emit_return, emit_global_string_constant, freshId, emitI] at h <;>
    first
      | (cases h; simp [sig])
      | cases h


theorem lookupA_cons_isSome (name k : String) (v : Instruction)
    (g : List (String × Instruction)) (h : (lookupA k g).isSome = true) :
    (lookupA k ((name, v) :: g)).isSome = true := by
  simp only [lookupA]
  split <;> simp [h]

/-- Environment preservation: a lowering step keeps the scope counter and the
frame-stack length, and never makes a flat-map key unresolvable. -/
def EnvPreserved (s s' : CState) : Prop :=
  s'.scope = s.scope ∧ s'.locals.length = s.locals.length ∧
    ∀ k, (lookupA k s.globals).isSome = true → (lookupA k s'.globals).isSome = true

theorem envPreserved_refl (s : CState) : EnvPreserved s s :=
  ⟨rfl, rfl, fun _ hk => hk⟩

theorem envPreserved_trans {s s' s'' : CState}
    (h1 : EnvPreserved s s') (h2 : EnvPreserved s' s'') : EnvPreserved s s'' :=
  ⟨h2.1.trans h1.1, h2.2.1.trans h1.2.1, fun k hk => h2.2.2 k (h1.2.2 k hk)⟩

theorem envPreserved_of_sig {s s' : CState} (h : sig s' = sig s) : EnvPreserved s s' := by
  simp only [sig, Prod.mk.injEq] at h
  exact ⟨h.2.2, by rw [h.2.1], fun k hk => by rw [h.1]; exact hk⟩

theorem emit_variable_env (name : String) (kind : DataTypes) (value : Instruction)
    (s : CState) : ∀ s', emit_variable name kind value s = .ok s' → EnvPreserved s s' := by
  intro s' h
  simp only [emit_variable] at h
  cases hmk : mkVarValue name kind value s with
  | error e => rw [hmk] at h; cases h
  | ok r =>
    rw [hmk] at h
    have hs := mkVarValue_sig name kind value s r hmk
    obtain ⟨instr, s1⟩ := r
    simp only [sig, Prod.mk.injEq] at hs
    obtain ⟨hg, hl, hsc⟩ := hs
    dsimp only at h
    split at h
    · -- `Instruction::Value` arm: bind the value
      split at h
      · -- numeric tag: insert into `locals[scope - 1]`
        split at h
        · cases h
        · split at h
          · cases h
            refine ⟨hsc, ?_, ?_⟩
            · simp [List.length_set, hl]
            · intro k hk; rw [hg]; exact hk
          · cases h
      · -- other tags: insert into the flat map
        cases h
        refine ⟨hsc, by simp [hl], ?_⟩
        intro k hk
        rw [hg]
        exact lookupA_cons_isSome _ _ _ _ hk
    · -- non-`Value` arm: no binding
      cases h
      exact ⟨hsc, by rw [hl], fun k hk => by rw [hg]; exact hk⟩

theorem codegen_env :
    ∀ (i : Instruction) (s : CState), ∀ s', codegen i s = .ok s' → EnvPreserved s s' := by
  have H := codegen.induct
    (fun i s => ∀ s', codegen i s = .ok s' → EnvPreserved s s')
    (fun l s => ∀ s', codegenList l s = .ok s' → EnvPreserved s s')
  apply H <;> clear H
  · -- Block, inner list errors
    intro stmts s e he _ s' h
    simp only [codegen, he] at h
    cases h
  · -- Block, inner list succeeds
    intro stmts s s2 hok ih s' h
    simp only [codegen, hok] at h
    cases h
    have hin := ih s2 hok
    obtain ⟨hsc, hlen, hmono⟩ := hin
    refine ⟨?_, ?_, ?_⟩
    · simp only [exitBlock]
      rw [hsc]
      simp [enterBlock]
    · simp only [exitBlock, List.length_dropLast]
      rw [hlen]
      simp [enterBlock]
    · intro k hk
      simp only [exitBlock]
      exact hmono k (by simpa [enterBlock] using hk)
  · -- Function, body errors
    intro nm _p body rk _pub s s1 e he _ s' h
    simp only [codegen] at h
    rw [he] at h
    cases h
  · -- Function, body ok, no return kind
    intro nm _p body rk _pub s s1 s2 hok hnone ih s' h
    simp only [codegen] at h
    rw [hok] at h
    dsimp only at h
    rw [if_pos hnone] at h
    cases h
    obtain ⟨a, b, c⟩ := ih s2 hok
    exact ⟨by simpa [emitI] using a, by simpa [emitI] using b,
           fun k hk => by simpa [emitI] using c k hk⟩
  · -- Function, body ok, explicit return kind
    intro nm _p body rk _pub s s1 s2 hok hnone ih s' h
    simp only [codegen] at h
    rw [hok] at h
    dsimp only at h
    rw [if_neg hnone] at h
    cases h
    obtain ⟨a, b, c⟩ := ih s2 hok
    exact ⟨a, b, fun k hk => c k hk⟩
  · -- Return
    intro i s s' h
    simp only [codegen] at h
    exact envPreserved_of_sig (emit_return_sig i s s' h)
  · -- String
    intro str s s' h
    simp only [codegen, emit_global_string_constant, freshId] at h
    cases h
    exact ⟨rfl, rfl, fun k hk => hk⟩
  · -- Println
    intro data s s' h
    simp only [codegen] at h
    split at h <;>
      exact envPreserved_of_sig (by
        have := emit_print_sig data _ s' h
        simpa [sig, define_printf] using this)
  · -- Print
    intro data s s' h
    simp only [codegen] at h
    split at h <;>
      exact envPreserved_of_sig (by
        have := emit_print_sig data _ s' h
        simpa [sig, define_printf] using this)
  · -- Var with initializer
    intro nm kind v line s s' h
    simp only [codegen] at h
    exact emit_variable_env nm kind v s s' h
  · -- Var without initializer
    intro nm kind line s s' h
    simp only [codegen] at h
    exact emit_variable_env nm kind .Null s s' h
  · -- EntryPoint, body errors
    intro body s e he _ s' h
    simp only [codegen, he] at h
    cases h
  · -- EntryPoint, body ok
    intro body s s2 hok ih s' h
    simp only [codegen, hok] at h
    cases h
    have := ih s2 hok
    obtain ⟨a, b, c⟩ := this
    exact ⟨by simpa [emit_main, emitI] using a,
           by simpa [emit_main, emitI] using b,
           fun k hk => by simpa [emitI] using c k (by simpa [emit_main] using hk)⟩
  · -- fallback arms
    intro t s hb hf hr hstr hpl hp hv1 hv2 hep s' h
    rw [codegen.eq_def] at h
    split at h <;>
      first
        | exact (hb _ rfl).elim
        | exact (hf _ _ _ _ _ rfl).elim
        | exact (hr _ rfl).elim
        | exact (hstr _ rfl).elim
        | exact (hpl _ rfl).elim
        | exact (hp _ rfl).elim
        | exact (hv1 _ _ _ _ rfl).elim
        | exact (hv2 _ _ _ rfl).elim
        | exact (hep _ rfl).elim
        | cases h
  · -- codegenList nil
    intro s s' h
    simp only [codegenList] at h
    cases h
    exact envPreserved_refl _
  · -- codegenList cons, head errors
    intro i rest s e he _ s' h
    simp only [codegenList, he] at h
    cases h
  · -- codegenList cons, head ok
    intro i rest s s2 hok ih1 ih2 s' h
    simp only [codegenList, hok] at h
    exact envPreserved_trans (ih1 s2 hok) (ih2 s' h)

theorem codegenList_env :
    ∀ (l : List Instruction) (s : CState), ∀ s', codegenList l s = .ok s' → EnvPreserved s s' := by
  intro l
  induction l with
  | nil =>
    intro s s' h
    simp only [codegenList] at h
    cases h
    exact envPreserved_refl _
  | cons i rest ih =>
    intro s s' h
    simp only [codegenList] at h
    cases hok : codegen i s with
    | error e => rw [hok] at h; cases h
    | ok s2 =>
      rw [hok] at h
      exact envPreserved_trans (codegen_env i s s2 hok) (ih s2 s' h)


/-! ## Diagnostic reporter (`src/diagnostic.rs`) -/

/-- Rust's `str::trim` (drop leading and trailing whitespace), modelled at
the character level so that it evaluates structurally. -/
def trimStr (s : String) : String :=
  ⟨((s.data.dropWhile Char.isWhitespace).reverse.dropWhile Char.isWhitespace).reverse⟩

/-- The source-line selection of `Diagnostic::print_report`:

```rust
let line: &str = if line == self.lines.len() - 1 {
    self.lines.last().unwrap().trim()
} else {
    self.lines[line - 1].trim()
};
```

`lines` is the in-memory list of the source's lines, `line` the 1-based line
number of the diagnostic.  The `unwrap` of an empty file and out-of-bounds
indexing (both panics) are modelled as `none`. -/
def selectReportLine (lines : List String) (line : Nat) : Option String :=
  if line = lines.length - 1 then (lines.getLast?).map trimStr
  else (lines.get? (line - 1)).map trimStr

/-- `Diagnostic::print_report` past the header: the rendered source-line text
(two leading spaces, the selected trimmed line, a newline) paired with the
number of underline marker characters pushed into the drawer
(`line.len() + 4`). -/
def print_report (lines : List String) (line : Nat) : Option (String × Nat) :=
  match selectReportLine lines line with
  | none => none
  | some l => some ("  " ++ l ++ "\n", l.length + 4)

/-- The C4 claim's rendering rule, written from the spec's words (not from
the source), for comparison with `selectReportLine`: render the trimmed text
of 1-based source line `n`, clamping to the final line when `n` equals the
last valid (1-based) index. -/
def specLineText (lines : List String) (n : Nat) : Option String :=
  if n = lines.length then (lines.getLast?).map trimStr
  else (lines.get? (n - 1)).map trimStr

/-! ## Build orchestrator (`FileBuilder` of `src/backend/compiler.rs`) -/

/-- Optimization tiers (`Opt`). -/
inductive Opt where
  | None | Low | Mid | Mcqueen
deriving DecidableEq, Repr

/-- Linking modes (`Linking`). -/
inductive Linking where
  | Static | Dynamic
deriving DecidableEq, Repr

/-- Relocation models (surface of `inkwell::targets::RelocMode`; never read
by `FileBuilder`). -/
inductive RelocMode where
  | Default | Static | PIC | DynamicNoPic
deriving DecidableEq, Repr

/-- Code models (surface of `inkwell::targets::CodeModel`; never read by
`FileBuilder`). -/
inductive CodeModel where
  | Default | JITDefault | Small | Kernel | Medium | Large
deriving DecidableEq, Repr

/-- The build configuration `Options` with all twelve fields of the source
struct (the target triple and output path are carried as plain strings). -/
structure Options where
  name : String
  target_triple : String
  optimization : Opt
  interpret : Bool
  emit_llvm : Bool
  emit_object : Bool
  build : Bool
  linking : Linking
  path : String
  is_main : Bool
  reloc_mode : RelocMode
  code_model : CodeModel
deriving DecidableEq, Repr

/-- Presence of the two external tools probed by `FileBuilder::build`
(`Command::new(..).spawn()` succeeding or failing). -/
structure Tools where
  clangPresent : Bool
  optPresent : Bool
deriving DecidableEq, Repr

/-- The externally observable actions of a `FileBuilder` run: file writes,
tool-presence probes (spawn-and-kill), real tool invocations, file removal,
and error logging. -/
inductive BuildEvent where
  | writeTextIR (path : String)
  | writeBitcode (path : String)
  | probe (tool : String)
  | runTool (tool : String) (args : List String)
  | removeFile (path : String)
  | logError (msg : String)
deriving DecidableEq, Repr

/-- The `-p=` match of `FileBuilder::build` on the optimization tier. -/
def optLevelStr : Opt → String
  | .None => "O0"
  | .Low => "O1"
  | .Mid => "O2"
  | .Mcqueen => "O3"

/-- The linking-mode flag match of `FileBuilder::build`. -/
def linkingStr : Linking → String
  | .Static => "--static"
  | .Dynamic => "-dynamic"

/-- The fixed pass-list arguments of `FileBuilder::opt`. -/
def optPassArgs (opt_level name : String) : List String :=
  ["-p=" ++ opt_level, "-p=globalopt", "-p=globaldce", "-p=dce", "-p=instcombine",
   "-p=strip-dead-prototypes", "-p=strip", "-p=mem2reg", "-p=memcpyopt",
   name ++ ".bc"]

/-- `FileBuilder::opt`: probe the optimizer by spawn-and-kill; when present,
run the fixed pass sequence over the bitcode and report success, otherwise
report failure (the caller logs the error message). -/
def FileBuilder.optStep (options : Options) (tools : Tools) (opt_level : String) :
    List BuildEvent × Bool :=
  if tools.optPresent then
    ([.probe "opt", .runTool "opt" (optPassArgs opt_level options.name)], true)
  else
    ([.probe "opt"], false)

/-- `FileBuilder::build`: the event trace of one orchestrator run.  Mirrors
the source: compute the tier and linking flags; if `emit_llvm` write the
textual IR and stop; otherwise serialize the bitcode, probe `clang-18`,
then (per `options.build`) run `FileBuilder::opt` and on its success invoke
the driver — linking an executable, or compiling an object with `-c` — and
finally delete the transient bitcode file; on a failed probe log the
corresponding fatal error and stop. -/
def FileBuilder.build (options : Options) (tools : Tools) : List BuildEvent :=
  let opt_level := optLevelStr options.optimization
  let linking := linkingStr options.linking
  if options.emit_llvm then
    [.writeTextIR (options.name ++ ".ll")]
  else
    [.writeBitcode (options.name ++ ".bc")] ++
      if tools.clangPresent then
        [.probe "clang-18"] ++
          (if options.build then
            (FileBuilder.optStep options tools opt_level).1 ++
              (if (FileBuilder.optStep options tools opt_level).2 then
                [.runTool "clang-18"
                   ["-opaque-pointers", linking, "-ffast-math",
                    options.name ++ ".bc", "-o", options.name],
                 .removeFile (options.name ++ ".bc")]
              else
                [.logError "Compilation failed. LLVM Optimizer is not installed."])
          else
            (FileBuilder.optStep options tools opt_level).1 ++
              (if (FileBuilder.optStep options tools opt_level).2 then
                [.runTool "clang-18"
                   ["-opaque-pointers", linking, "-ffast-math", "-c",
                    options.name ++ ".bc", "-o", options.name ++ ".o"],
                 .removeFile (options.name ++ ".bc")]
              else
                [.logError "Compilation failed. LLVM Optimizer is not installed."]))
      else
        [.logError "Compilation failed. Clang version 17 is not installed."]

/-- The output path of a driver invocation: the argument following `-o`. -/
def outputOf : List String → Option String
  | [] => none
  | a :: rest => if a = "-o" then rest.head? else outputOf rest

/-- Remove every occurrence of a path from the file set. -/
def removePath (p : String) : List String → List String
  | [] => []
  | q :: rest => if q = p then removePath p rest else q :: removePath p rest

/-- The filesystem effect of one build event: text-IR and bitcode writes
create their path, a driver run creates its `-o` output, a removal deletes
its path; probes, optimizer runs (in-place) and logging touch nothing. -/
def applyEvent (files : List String) : BuildEvent → List String
  | .writeTextIR p => files ++ [p]
  | .writeBitcode p => files ++ [p]
  | .probe _ => files
  | .runTool tool args =>
    if tool = "clang-18" then
      match outputOf args with
      | some p => files ++ [p]
      | none => files
    else files
  | .removeFile p => removePath p files
  | .logError _ => files

/-- The files remaining on disk after a build-event trace. -/
def finalFiles (events : List BuildEvent) : List String :=
  events.foldl applyEvent []


/-! ## Claim-level helper lemmas -/

/-- Helper for C3: a string or boolean declaration that lowers successfully
writes its binding into the flat module-scope map under its own name. -/
theorem emit_variable_stringbool_binds (nm : String) (kind : DataTypes) (v : Instruction)
    (s : CState) (hk : kind = .String ∨ kind = .Bool) :
    ∀ s', emit_variable nm kind v s = .ok s' → (lookupA nm s'.globals).isSome = true := by
  intro s' h
  rcases hk with rfl | rfl <;> cases v <;>
    simp [emit_variable, mkVarValue, emit_global_string, emit_global_boolean,
      freshId, isIntegerTag, isFloatTag, deferTag] at h <;>
    (subst h; simp [lookupA])

/-- Helper for C3: a resolvable flat-map key is resolved by `get_global`. -/
theorem get_global_of_isSome (k : String) (s : CState)
    (h : (lookupA k s.globals).isSome = true) : ∃ v, get_global k s = .ok v := by
  simp only [get_global]
  cases hv : lookupA k s.globals with
  | none => rw [hv] at h; cases h
  | some v => exact ⟨v, rfl⟩

/-- Helper for C9: a string declaration with `Null` initializer emits a
one-byte named global holding the NUL byte and binds its pointer in the flat
map. -/
theorem emit_variable_string_null_eq (nm : String) (s : CState) :
    emit_variable nm .String .Null s =
      .ok { s with
            fresh := s.fresh + 1,
            globalsIR := s.globalsIR ++ [⟨s.fresh, nm, .bytes [0], false⟩],
            globals := (nm, .Value ⟨.String, .gptr s.fresh⟩) :: s.globals } := by
  simp [emit_variable, mkVarValue, emit_global_string, freshId,
    isIntegerTag, isFloatTag, deferTag, (show strBytes "\x00" = [0] from rfl)]

/-- Helper for C9: an integer declaration with `Null` initializer stores the
integer zero constant into the fresh stack cell. -/
theorem emit_variable_int_null_stores_zero (nm : String) (kind : DataTypes) (s : CState)
    (hk : isIntegerTag kind = true) (h0 : s.scope ≠ 0)
    (h1 : s.scope - 1 < s.locals.length) :
    ∃ s', emit_variable nm kind .Null s = .ok s' ∧
      IRInstr.store s.fresh (.constInt kind 0) 4 ∈ s'.instrs := by
  have hf : isFloatTag kind = false := by
    cases kind <;> simp_all [isIntegerTag, isFloatTag]
  have hfr : s.locals[s.scope - 1]? = some (s.locals.get ⟨s.scope - 1, h1⟩) := by
    rw [List.getElem?_eq_getElem h1]
    simp [List.get_eq_getElem]
  refine ⟨{ s with
            fresh := s.fresh + 1 + 1,
            instrs := s.instrs ++
              [.alloca s.fresh (datatype_integer_to_type kind),
               .store s.fresh (.constInt kind 0) 4,
               .load (s.fresh + 1) s.fresh (datatype_integer_to_type kind) 4],
            locals := s.locals.set (s.scope - 1)
              ((nm, .Value ⟨kind, .loaded (s.fresh + 1)⟩) ::
                s.locals.get ⟨s.scope - 1, h1⟩) }, ?_, by simp⟩
  simp [emit_variable, mkVarValue, build_alloca, build_const_integer, freshId,
    emitI, deferTag, hk, hf, h0, hfr, List.get_eq_getElem]

/-- Helper for C9: a float declaration with `Null` initializer stores the
float zero constant into the fresh stack cell. -/
theorem emit_variable_float_null_stores_zero (nm : String) (kind : DataTypes) (s : CState)
    (hk : isFloatTag kind = true) (h0 : s.scope ≠ 0)
    (h1 : s.scope - 1 < s.locals.length) :
    ∃ s', emit_variable nm kind .Null s = .ok s' ∧
      IRInstr.store s.fresh (.constFloat kind 0) 4 ∈ s'.instrs := by
  have hi : isIntegerTag kind = false := by
    cases kind <;> simp_all [isIntegerTag, isFloatTag]
  have hfr : s.locals[s.scope - 1]? = some (s.locals.get ⟨s.scope - 1, h1⟩) := by
    rw [List.getElem?_eq_getElem h1]
    simp [List.get_eq_getElem]
  refine ⟨{ s with
            fresh := s.fresh + 1 + 1,
            instrs := s.instrs ++
              [.alloca s.fresh (datatype_float_to_type kind),
               .store s.fresh (.constFloat kind 0) 4,
               .load (s.fresh + 1) s.fresh (datatype_float_to_type kind) 4],
            locals := s.locals.set (s.scope - 1)
              ((nm, .Value ⟨kind, .loaded (s.fresh + 1)⟩) ::
                s.locals.get ⟨s.scope - 1, h1⟩) }, ?_, by simp⟩
  simp [emit_variable, mkVarValue, build_alloca, build_const_float, freshId,
    emitI, deferTag, hk, hi, h0, hfr, List.get_eq_getElem]


/-! ## String-length helpers for the build-orchestrator claims -/

theorem append_ne_self_of_length (a b : String) (hb : b.length ≠ 0) : a ++ b ≠ a := by
  intro h
  have := congrArg String.length h
  rw [String.length_append] at this
  omega

theorem append_ne_append_of_length (a b c : String) (h : b.length ≠ c.length) :
    a ++ b ≠ a ++ c := by
  intro he
  have := congrArg String.length he
  rw [String.length_append, String.length_append] at this
  omega

theorem append_ne_of_length (a b c : String) (h : a.length + b.length ≠ c.length) :
    a ++ b ≠ c := by
  intro he
  have := congrArg String.length he
  rw [String.length_append] at this
  omega

/-! ## Claims -/

/-- The C1 input: `EntryPoint(Block([Var("x", I32, none), Print([RefVar("x", I32)])]))`. -/
def c1Input : List Instruction :=
  [.EntryPoint (.Block [.Var "x" .I32 none 1, .Print [.RefVar "x" 2 .I32]])]

/-- The state upon entering the entry-point body block of `c1Input`:
`main` declared, one block entered (`scope = 1`, two frames). -/
def c1BlockState : CState :=
  { instrs := [], globalsIR := [], funcs := ["main"], fresh := 0,
    globals := [], locals := [[], []], scope := 1, logs := [] }

/-- The state after lowering `Var("x", I32, none)` from `c1BlockState`: the
32-bit cell is allocated, zero-stored and reloaded, but the binding lands in
frame index 0 — the outer frame — while the innermost frame (index 1) stays
empty. -/
def c1AfterVar : CState :=
  { instrs := [.alloca 0 32, .store 0 (.constInt .I32 0) 4, .load 1 0 32 4],
    globalsIR := [], funcs := ["main"], fresh := 2,
    globals := [], locals := [[("x", .Value ⟨.I32, .loaded 1⟩)], []],
    scope := 1, logs := [] }

/-- C1 (code_bug).  The claimed scenario — a 32-bit stack cell initialized to
0, reloaded, the reloaded value bound in the current frame and passed to the
print call via the innermost-outward frame walk — aborts instead:
`emit_variable` inserts the binding into `locals[scope - 1]` (the parent
frame, index 0, while the innermost frame has index 1), and `get_local` walks
only the frame indices strictly below `scope - 1` (an empty range at
`scope = 1`), so the `RefVar` resolution hits the `panic!()` and the whole
lowering fails; no print call is ever emitted. -/
theorem c1_var_then_print_panics :
    compile c1Input = .error .panicE ∧
    emit_variable "x" .I32 .Null c1BlockState = .ok c1AfterVar ∧
    get_local "x" c1AfterVar = .error .panicE :=
  ⟨rfl, rfl, rfl⟩

/-- The C2 input: a numeric local declared inside an inner block, then
referenced from a strictly later, more deeply nested sibling block. -/
def c2Input : List Instruction :=
  [.EntryPoint (.Block
    [.Block [.Var "x" .I32 none 1],
     .Block [.Block [.Print [.RefVar "x" 3 .I32]]]])]

/-- The final state of lowering `c2Input`: the print call receives the value
loaded for `x` although the block declaring `x` exited long before. -/
def c2Final : CState :=
  { instrs := [.alloca 0 32, .store 0 (.constInt .I32 0) 4, .load 1 0 32 4,
               .call "printf" [.loaded 1], .retValue (.constInt .I32 0)],
    globalsIR := [], funcs := ["main", "printf"], fresh := 2,
    globals := [], locals := [[]], scope := 0, logs := [] }

/-- C2 (code_bug).  The claim says a numeric local becomes unresolvable as
soon as its declaring block's lowering completes (its frame is popped).  The
code instead inserts the binding into `locals[scope - 1]` — the parent frame
— which survives the declaring block's pop, and `get_local` from a later,
more deeply nested block still finds it: lowering `c2Input` succeeds and
passes the value loaded for `x` to the print call emitted after `x`'s
declaring block exited. -/
theorem c2_numeric_local_survives_block_exit :
    compile c2Input = .ok c2Final ∧
    IRInstr.call "printf" [.loaded 1] ∈ c2Final.instrs :=
  ⟨rfl, by simp [c2Final]⟩

/-- C3 (confirmed): every string/boolean declaration that lowers successfully
writes its binding into the flat module-scope map whatever the lexical depth;
no lowering step (of one node or of a statement list) ever makes a flat-map
key unresolvable — in particular block exit does not — and a resolvable key
is resolved by `get_global`. -/
theorem c3_stringbool_flat_persistence :
    (∀ (nm : String) (kind : DataTypes) (v : Instruction) (s s' : CState),
       kind = .String ∨ kind = .Bool → emit_variable nm kind v s = .ok s' →
       (lookupA nm s'.globals).isSome = true) ∧
    (∀ (i : Instruction) (s s' : CState), codegen i s = .ok s' →
       ∀ k, (lookupA k s.globals).isSome = true → (lookupA k s'.globals).isSome = true) ∧
    (∀ (l : List Instruction) (s s' : CState), codegenList l s = .ok s' →
       ∀ k, (lookupA k s.globals).isSome = true → (lookupA k s'.globals).isSome = true) ∧
    (∀ (k : String) (s : CState), (lookupA k s.globals).isSome = true →
       ∃ v, get_global k s = .ok v) :=
  ⟨fun nm kind v s s' hk h => emit_variable_stringbool_binds nm kind v s hk s' h,
   fun i s s' h k hk => (codegen_env i s s' h).2.2 k hk,
   fun l s s' h k hk => (codegenList_env l s s' h).2.2 k hk,
   get_global_of_isSome⟩

/-- The state reached after lowering `Var("b", Bool, Boolean(true))` from the
initial state, used by the C3 witness. -/
def c3WitnessState : CState :=
  { instrs := [], globalsIR := [⟨0, "", .boolInit true, false⟩], funcs := [],
    fresh := 1, globals := [("b", .Value ⟨.Bool, .gptr 0⟩)], locals := [[]],
    scope := 0, logs := [] }

/-- Witness for C3 at concrete inputs: a boolean declaration binds "b" into
the flat map; `get_global` then resolves it. -/
theorem c3_witness :
    (DataTypes.Bool = .String ∨ DataTypes.Bool = .Bool) ∧
    emit_variable "b" .Bool (.Boolean true) initState = .ok c3WitnessState ∧
    (lookupA "b" c3WitnessState.globals).isSome = true ∧
    codegen (.Block []) c3WitnessState = .ok c3WitnessState ∧
    (∃ v, get_global "b" c3WitnessState = .ok v) :=
  ⟨Or.inr rfl, rfl,
   c3_stringbool_flat_persistence.1 "b" .Bool (.Boolean true) initState c3WitnessState
     (Or.inr rfl) rfl,
   rfl,
   c3_stringbool_flat_persistence.2.2.2 "b" c3WitnessState rfl⟩

/-- C4 counterexample (closed): for the two-line file `["a", "b"]` and the
valid 1-based line number 1 (not the last valid index, so the claim's clamp
exception does not apply), the reporter selects and renders "b" — the trimmed
text of line 2 — while the claim requires line 1's text "a". -/
theorem c4_counterexample :
    selectReportLine ["a", "b"] 1 = some "b" ∧
    specLineText ["a", "b"] 1 = some "a" ∧
    selectReportLine ["a", "b"] 1 ≠ specLineText ["a", "b"] 1 ∧
    print_report ["a", "b"] 1 = some ("  b\n", 5) :=
  ⟨rfl, rfl, by decide, rfl⟩

/-- C4 amended: for every valid 1-based line number `n`, the reporter renders
the trimmed text of line `n` — except when `n` equals `lines.len() - 1` (the
0-based index of the last line, compared against the 1-based `n`), where it
renders the trimmed final line instead; a single-line file with `n = 1` is
rendered through the ordinary indexing path, not through the special case. -/
theorem c4_report_line_amended (lines : List String) (n : Nat)
    (h1 : 1 ≤ n) (h2 : n ≤ lines.length) :
    (n ≠ lines.length - 1 → selectReportLine lines n = specLineText lines n) ∧
    (n = lines.length - 1 → selectReportLine lines n = (lines.getLast?).map trimStr) ∧
    (lines.length = 1 → n = 1 ∧ selectReportLine lines n = (lines.get? 0).map trimStr) := by
  refine ⟨?_, ?_, ?_⟩
  · intro hne
    simp only [selectReportLine, specLineText, if_neg hne]
    by_cases hlen : n = lines.length
    · rw [if_pos hlen]
      subst hlen
      rw [List.getLast?_eq_getElem? lines]
      simp [List.get?_eq_getElem?]
    · rw [if_neg hlen]
  · intro he
    simp only [selectReportLine, if_pos he]
  · intro hlen
    have hn : n = 1 := by omega
    subst hn
    refine ⟨rfl, ?_⟩
    have hz : lines.length - 1 = 0 := by rw [hlen]
    simp only [selectReportLine, hz]
    norm_num

/-- Witness for the amended C4 at a concrete input. -/
theorem c4_witness :
    (1 : Nat) ≤ 2 ∧ 2 ≤ (["a", "b"] : List String).length ∧
    ((2 : Nat) ≠ (["a", "b"] : List String).length - 1 →
      selectReportLine ["a", "b"] 2 = specLineText ["a", "b"] 2) :=
  ⟨by decide, by decide, (c4_report_line_amended ["a", "b"] 2 (by decide) (by decide)).1⟩

/-- C5 (confirmed): the initial state has frame-stack length `scope + 1`;
every successful lowering step (single node or statement list) restores the
scope counter and the frame-stack length, hence preserves the invariant
`locals.length = scope + 1`; entering a block pushes exactly one frame and
increments the counter, leaving pops it and decrements, restoring both, and
lowering a block is exactly enter–lower–exit. -/
theorem c5_scope_frame_invariant :
    initState.locals.length = initState.scope + 1 ∧
    (∀ (i : Instruction) (s s' : CState), codegen i s = .ok s' →
       s'.scope = s.scope ∧ s'.locals.length = s.locals.length ∧
       (s.locals.length = s.scope + 1 → s'.locals.length = s'.scope + 1)) ∧
    (∀ (l : List Instruction) (s s' : CState), codegenList l s = .ok s' →
       s'.scope = s.scope ∧ s'.locals.length = s.locals.length) ∧
    (∀ s : CState, (enterBlock s).scope = s.scope + 1 ∧
       (enterBlock s).locals.length = s.locals.length + 1 ∧
       (exitBlock (enterBlock s)).scope = s.scope ∧
       (exitBlock (enterBlock s)).locals.length = s.locals.length) ∧
    (∀ (stmts : List Instruction) (s : CState),
       codegen (.Block stmts) s =
         match codegenList stmts (enterBlock s) with
         | .error e => .error e
         | .ok s2 => .ok (exitBlock s2)) := by
  refine ⟨rfl, ?_, ?_, ?_, fun stmts s => rfl⟩
  · intro i s s' h
    obtain ⟨a, b, _⟩ := codegen_env i s s' h
    exact ⟨a, b, fun hinv => by rw [b, a, hinv]⟩
  · intro l s s' h
    obtain ⟨a, b, _⟩ := codegenList_env l s s' h
    exact ⟨a, b⟩
  · intro s
    refine ⟨rfl, by simp [enterBlock], by simp [enterBlock, exitBlock], ?_⟩
    simp [enterBlock, exitBlock, List.dropLast_concat]

/-- The state after lowering a one-statement block (a string declaration)
from the initial state, used by the C5 witness. -/
def c5WitnessFinal : CState :=
  { instrs := [], globalsIR := [⟨0, "s", .bytes [0], false⟩], funcs := [],
    fresh := 1, globals := [("s", .Value ⟨.String, .gptr 0⟩)], locals := [[]],
    scope := 0, logs := [] }

/-- Witness for C5 at a concrete input: lowering one block restores scope and
frame count and maintains the invariant. -/
theorem c5_witness :
    codegen (.Block [.Var "s" .String none 1]) initState = .ok c5WitnessFinal ∧
    c5WitnessFinal.scope = initState.scope ∧
    c5WitnessFinal.locals.length = initState.locals.length ∧
    (initState.locals.length = initState.scope + 1 →
      c5WitnessFinal.locals.length = c5WitnessFinal.scope + 1) :=
  ⟨rfl, c5_scope_frame_invariant.2.1 (.Block [.Var "s" .String none 1])
    initState c5WitnessFinal rfl⟩

/-- C6 counterexample (closed): lowering a print whose only argument is a
variable reference with the unsupported tag `Void` does not raise any
unsupported-construct condition: it succeeds, printing the tag to the console
and emitting the `printf` call with the argument silently skipped. -/
theorem c6_counterexample :
    codegen (.Print [.RefVar "y" 1 .Void]) initState =
      .ok { instrs := [.call "printf" []], globalsIR := [], funcs := ["printf"],
            fresh := 0, globals := [], locals := [[]], scope := 0,
            logs := ["void"] } :=
  rfl

/-- C6 amended: during print/println lowering, a variable-reference argument
whose semantic type tag is not a supported numeric, string, or boolean tag is
not an error; the tag is printed to the console (`println!("{e}")`) and
lowering continues, emitting the `printf` call without that argument. -/
theorem c6_unsupported_tag_skipped (nm : String) (ln : Nat) (s : CState) :
    codegen (.Print [.RefVar nm ln .Void]) s =
      .ok { (if s.funcs.contains "printf" then s else define_printf s) with
            instrs := s.instrs ++ [.call "printf" []],
            logs := s.logs ++ [displayTag .Void] } := by
  by_cases hm : "printf" ∈ s.funcs <;>
    simp [codegen, emit_print, emitPrintArgs, emitPrintArg, define_printf, emitI,
      hm, isIntegerTag, isFloatTag]

/-- C7 (confirmed): with the emit-intermediate-text flag unset and both tools
present, the run is exactly: write `<name>.bc`, probe the driver, probe the
optimizer, run the fixed pass list, run the driver (linking `<name>` when
build-executable is requested, else compiling `<name>.o` with `-c`), and
delete `<name>.bc`; exactly one artifact remains afterwards. -/
theorem c7_bitcode_deleted_one_artifact (options : Options)
    (h : options.emit_llvm = false) :
    FileBuilder.build options ⟨true, true⟩ =
      [.writeBitcode (options.name ++ ".bc"), .probe "clang-18", .probe "opt",
       .runTool "opt" (optPassArgs (optLevelStr options.optimization) options.name),
       .runTool "clang-18"
         (if options.build then
           ["-opaque-pointers", linkingStr options.linking, "-ffast-math",
            options.name ++ ".bc", "-o", options.name]
          else
           ["-opaque-pointers", linkingStr options.linking, "-ffast-math", "-c",
            options.name ++ ".bc", "-o", options.name ++ ".o"]),
       .removeFile (options.name ++ ".bc")] ∧
    finalFiles (FileBuilder.build options ⟨true, true⟩) =
      [if options.build then options.name else options.name ++ ".o"] := by
  have hne2 : ¬(options.name = options.name ++ ".bc") :=
    fun he => append_ne_self_of_length options.name ".bc" (by decide) he.symm
  have hne3 : ¬(options.name ++ ".o" = options.name ++ ".bc") :=
    append_ne_append_of_length options.name ".o" ".bc" (by decide)
  have hne4 : ¬(options.name ++ ".bc" = "-o") := by
    refine append_ne_of_length options.name ".bc" "-o" ?_
    have h3 : (".bc" : String).length = 3 := by decide
    have h2 : ("-o" : String).length = 2 := by decide
    omega
  cases hb : options.build <;> cases hl : options.linking <;>
    simp [FileBuilder.build, FileBuilder.optStep, h, hb, hl, linkingStr, finalFiles,
      applyEvent, outputOf, removePath, hne2, hne3, hne4]

/-- A sample build configuration for witnesses. -/
def sampleOptions : Options :=
  { name := "main", target_triple := "x86_64-unknown-linux-gnu",
    optimization := .None, interpret := false, emit_llvm := false,
    emit_object := false, build := false, linking := .Static, path := "out",
    is_main := true, reloc_mode := .Default, code_model := .Default }

/-- Witness for C7 at a concrete configuration. -/
theorem c7_witness :
    sampleOptions.emit_llvm = false ∧
    FileBuilder.build sampleOptions ⟨true, true⟩ =
      [.writeBitcode "main.bc", .probe "clang-18", .probe "opt",
       .runTool "opt" (optPassArgs "O0" "main"),
       .runTool "clang-18"
         ["-opaque-pointers", "--static", "-ffast-math", "-c", "main.bc", "-o", "main.o"],
       .removeFile "main.bc"] ∧
    finalFiles (FileBuilder.build sampleOptions ⟨true, true⟩) = ["main.o"] := by
  have h := c7_bitcode_deleted_one_artifact sampleOptions rfl
  exact ⟨rfl, by simpa [sampleOptions, linkingStr, optLevelStr] using h.1,
         by simpa [sampleOptions] using h.2⟩

/-- C8 (confirmed): with the emit-intermediate-text flag set, the run writes
the textual IR to `<name>.ll` and stops — no probe of either tool, no tool
invocation, and no bitcode file is ever created. -/
theorem c8_emit_llvm_stops (options : Options) (tools : Tools)
    (h : options.emit_llvm = true) :
    FileBuilder.build options tools = [.writeTextIR (options.name ++ ".ll")] ∧
    (∀ t, BuildEvent.probe t ∉ FileBuilder.build options tools) ∧
    (∀ t args, BuildEvent.runTool t args ∉ FileBuilder.build options tools) ∧
    (∀ p, BuildEvent.writeBitcode p ∉ FileBuilder.build options tools) := by
  have hb : FileBuilder.build options tools = [.writeTextIR (options.name ++ ".ll")] := by
    simp [FileBuilder.build, h]
  refine ⟨hb, ?_, ?_, ?_⟩ <;> intro t <;> simp [hb]

/-- Witness for C8 at a concrete configuration. -/
theorem c8_witness :
    ({ sampleOptions with emit_llvm := true } : Options).emit_llvm = true ∧
    FileBuilder.build { sampleOptions with emit_llvm := true } ⟨true, true⟩ =
      [.writeTextIR "main.ll"] ∧
    (BuildEvent.probe "opt" ∉
      FileBuilder.build { sampleOptions with emit_llvm := true } ⟨true, true⟩) := by
  have h := c8_emit_llvm_stops { sampleOptions with emit_llvm := true } ⟨true, true⟩ rfl
  exact ⟨rfl, by simpa [sampleOptions] using h.1, h.2.1 "opt"⟩

/-- A generic state with one entered scope (two frames), used by witnesses. -/
def sampleScopedState : CState :=
  { instrs := [], globalsIR := [], funcs := [], fresh := 0,
    globals := [], locals := [[], []], scope := 1, logs := [] }

/-- C9 (confirmed): a boolean declaration with no initializer reaches the
`unimplemented!()` arm and aborts lowering; a string declaration with no
initializer succeeds and emits a one-byte named global initialized to the NUL
byte, binding its pointer; integer and float declarations with no initializer
store the type's zero constant into the freshly allocated stack cell. -/
theorem c9_missing_initializer_defaults :
    (∀ (nm : String) (s : CState),
       emit_variable nm .Bool .Null s = .error .unimplementedE) ∧
    (∀ (nm : String) (s : CState),
       emit_variable nm .String .Null s =
         .ok { s with
               fresh := s.fresh + 1,
               globalsIR := s.globalsIR ++ [⟨s.fresh, nm, .bytes [0], false⟩],
               globals := (nm, .Value ⟨.String, .gptr s.fresh⟩) :: s.globals }) ∧
    (∀ (nm : String) (kind : DataTypes) (s : CState),
       isIntegerTag kind = true → s.scope ≠ 0 → s.scope - 1 < s.locals.length →
       ∃ s', emit_variable nm kind .Null s = .ok s' ∧
         IRInstr.store s.fresh (.constInt kind 0) 4 ∈ s'.instrs) ∧
    (∀ (nm : String) (kind : DataTypes) (s : CState),
       isFloatTag kind = true → s.scope ≠ 0 → s.scope - 1 < s.locals.length →
       ∃ s', emit_variable nm kind .Null s = .ok s' ∧
         IRInstr.store s.fresh (.constFloat kind 0) 4 ∈ s'.instrs) :=
  ⟨fun _ _ => rfl, emit_variable_string_null_eq,
   emit_variable_int_null_stores_zero, emit_variable_float_null_stores_zero⟩

/-- Witness for C9 at concrete inputs. -/
theorem c9_witness :
    (isIntegerTag .I32 = true ∧ sampleScopedState.scope ≠ 0 ∧
       sampleScopedState.scope - 1 < sampleScopedState.locals.length ∧
       ∃ s', emit_variable "n" .I32 .Null sampleScopedState = .ok s' ∧
         IRInstr.store 0 (.constInt .I32 0) 4 ∈ s'.instrs) ∧
    (isFloatTag .F64 = true ∧
       ∃ s', emit_variable "f" .F64 .Null sampleScopedState = .ok s' ∧
         IRInstr.store 0 (.constFloat .F64 0) 4 ∈ s'.instrs) :=
  ⟨⟨rfl, by decide, by decide,
    c9_missing_initializer_defaults.2.2.1 "n" .I32 sampleScopedState rfl
      (by decide) (by decide)⟩,
   ⟨rfl,
    c9_missing_initializer_defaults.2.2.2 "f" .F64 sampleScopedState rfl
      (by decide) (by decide)⟩⟩

/-- C10 (confirmed noninterference): the orchestrator reads only the `name`,
`optimization`, `emit_llvm`, `build` and `linking` fields; two configurations
agreeing on those five fields — whatever their `target_triple`, `interpret`,
`emit_object`, `path`, `is_main`, `reloc_mode` and `code_model` — produce
identical event traces (file writes, probes, tool invocations, deletions)
against any tool environment. -/
theorem c10_build_noninterference (o1 o2 : Options) (tools : Tools)
    (hname : o1.name = o2.name) (hopt : o1.optimization = o2.optimization)
    (hllvm : o1.emit_llvm = o2.emit_llvm) (hbuild : o1.build = o2.build)
    (hlink : o1.linking = o2.linking) :
    FileBuilder.build o1 tools = FileBuilder.build o2 tools := by
  obtain ⟨n1, t1, p1, i1, e1, eo1, b1, l1, pa1, m1, r1, c1⟩ := o1
  obtain ⟨n2, t2, p2, i2, e2, eo2, b2, l2, pa2, m2, r2, c2⟩ := o2
  simp only at hname hopt hllvm hbuild hlink
  subst hname hopt hllvm hbuild hlink
  rfl

/-- Witness for C10: two configurations differing in every unread field. -/
theorem c10_witness :
    FileBuilder.build sampleOptions ⟨true, true⟩ =
      FileBuilder.build
        { sampleOptions with
          target_triple := "aarch64-apple-darwin", interpret := true,
          emit_object := true, path := "elsewhere", is_main := false,
          reloc_mode := .PIC, code_model := .Large } ⟨true, true⟩ :=
  c10_build_noninterference _ _ _ rfl rfl rfl rfl rfl

end Thrush
